import Mathlib

/-!
Shallow embedding of the presence/session engine, the join-request ledger and
the dashboard fan-out of `src/bot.js` (rustplus-bot), together with proofs of
the specification's claims about them.

Conventions of the embedding:
* JS timestamps (`Date.now()`) are `Int` values passed explicitly as `now`.
* JS `null`/absent numeric fields are `Option Int`; JS truthiness of such a
  field (`if (x)`) is `x ≠ null ∧ x ≠ 0`.
* JS falsy-string defaulting (`a || b`) is `jsOr`.
* JS `Map` objects keyed by strings are association lists, with `Map.set`
  keeping the position of an existing key and appending a fresh key at the
  end, as JS insertion order does.
* Side effects (file writes, WebSocket broadcasts, Discord messages) are
  reified as effect lists returned next to the new state.
-/

namespace RustBot

/-- JS `a || b` on strings: the empty string is falsy. -/
def jsOr (a b : String) : String := if a = "" then b else a

/-- JS `a || b` on numbers: `0` is falsy. -/
def jsOrInt (a b : Int) : Int := if a = 0 then b else a

/-- JS truthiness of a nullable timestamp field: non-null and non-zero. -/
def truthyTime : Option Int → Bool
  | none => false
  | some t => decide (¬ t = 0)

/-- JS `String.prototype.toLowerCase` (ASCII case folding suffices here). -/
def lowerStr (s : String) : String := String.mk (s.toList.map Char.toLower)

/-- JS `key.startsWith('bm_')`, the secondary-namespace tag test. -/
def isBMKey (k : String) : Bool := decide (k.toList.take 3 = ['b', 'm', '_'])

/-- Lookup in a JS `Map` modelled as an association list (`Map.get`). -/
def mapLookup {κ α : Type} [DecidableEq κ] (k : κ) : List (κ × α) → Option α
  | [] => none
  | (k2, v) :: rest => if k2 = k then some v else mapLookup k rest

/-- JS `Map.set`: replace in place if the key exists, else append at the end. -/
def mapSet {κ α : Type} [DecidableEq κ] (k : κ) (v : α) : List (κ × α) → List (κ × α)
  | [] => [(k, v)]
  | (k2, v2) :: rest => if k2 = k then (k2, v) :: rest else (k2, v2) :: mapSet k v rest

/-- UTF-8 bytes of one code point (what `Buffer.from(string)` produces). -/
def utf8Bytes (c : Char) : List Nat :=
  let n := c.toNat
  if n < 128 then [n]
  else if n < 2048 then [192 + n / 64, 128 + n % 64]
  else if n < 65536 then [224 + n / 4096, 128 + (n / 64) % 64, 128 + n % 64]
  else [240 + n / 262144, 128 + (n / 4096) % 64, 128 + (n / 64) % 64, 128 + n % 64]

/-- The bytes of a string under UTF-8, as `Buffer.from(s)`. -/
def strBytes (s : String) : List Nat := (s.toList.map utf8Bytes).flatten

/-- The base64 alphabet as a list of characters. -/
def b64Alphabet : List Char :=
  "ABCDEFGHIJKLMNOPQRSTUVWXYZabcdefghijklmnopqrstuvwxyz0123456789+/".toList

/-- One output character of base64. -/
def b64Char (n : Nat) : Char := b64Alphabet.getD n '='

/-- Encode one chunk of at most three bytes into four base64 characters. -/
def b64Chunk : List Nat → List Char
  | [x, y, z] => [b64Char (x / 4), b64Char (x % 4 * 16 + y / 16),
                  b64Char (y % 16 * 4 + z / 64), b64Char (z % 64)]
  | [x, y] => [b64Char (x / 4), b64Char (x % 4 * 16 + y / 16), b64Char (y % 16 * 4), '=']
  | [x] => [b64Char (x / 4), b64Char (x % 4 * 16), '=', '=']
  | _ => []

/-- Group a byte list into chunks of three. -/
def b64Groups : List Nat → List (List Nat)
  | [] => []
  | [x] => [[x]]
  | [x, y] => [[x, y]]
  | x :: y :: z :: rest => [x, y, z] :: b64Groups rest

/-- `Buffer.from(s).toString('base64')`. -/
def base64Encode (s : String) : String :=
  String.mk ((b64Groups (strBytes s)).map b64Chunk).flatten

/-! ## Spy tracker data model (src/bot.js lines 150-352)

`watchedPlayers: steamId → { steamId, name, addedAt, online, totalMs,
currentSessionStart, sessions[] }`, `allServerPlayers: steamId → { name, online }`. -/

/-- One closed session `{ start, end, ms }` (JS field `end` is `stop` here). -/
structure Session where
  start : Int
  stop : Int
  ms : Int
  deriving DecidableEq, Repr

/-- One watched player record. -/
structure WatchedPlayer where
  steamId : String
  name : String
  addedAt : Int
  online : Bool
  totalMs : Int
  currentSessionStart : Option Int
  sessions : List Session
  deriving DecidableEq, Repr

/-- One `allServerPlayers` roster entry (`fromBM` is absent = false on the
team-feed path). -/
structure RosterEntry where
  name : String
  online : Bool
  fromBM : Bool
  deriving DecidableEq, Repr

/-- The spy tracker's mutable state: the two string-keyed maps. -/
structure SpyState where
  watched : List (String × WatchedPlayer)
  roster : List (String × RosterEntry)
  deriving DecidableEq, Repr

/-- One member of a team-roster snapshot, as consumed by `updateSpyFromTeam`. -/
structure TeamMember where
  steamId : String
  name : String
  isOnline : Bool
  deriving DecidableEq, Repr

/-- A spy-event kind (`'online'` / `'offline'`). -/
inductive SpyEvent
  | online
  | offline
  deriving DecidableEq, Repr

/-- A reified side effect of the spy tracker. -/
inductive Effect
  | wsBroadcastSpyEvent (steamId : String) (name : String) (ev : SpyEvent)
  | pushAlert
  | saveWatched
  | wsBroadcastState
  deriving DecidableEq, Repr

/-- The body of the `updateSpyFromTeam` forEach for one watched player
(src/bot.js lines 226-248): refresh the name, set `online`, and on a
transition open or close the session and emit broadcast/alert/save effects. -/
def updateSpyOne (now : Int) (m : TeamMember) (wp : WatchedPlayer) :
    WatchedPlayer × List Effect :=
  let nowOnline := m.isOnline
  let wp1 := { wp with name := jsOr m.name wp.name, online := nowOnline }
  if !wp.online && nowOnline then
    ({ wp1 with currentSessionStart := some now },
     [.wsBroadcastSpyEvent m.steamId wp1.name .online, .pushAlert, .saveWatched])
  else if wp.online && !nowOnline then
    let wp2 :=
      if truthyTime wp1.currentSessionStart then
        match wp1.currentSessionStart with
        | some s =>
          { wp1 with sessions := wp1.sessions ++ [⟨s, now, now - s⟩],
                     totalMs := wp1.totalMs + (now - s),
                     currentSessionStart := none }
        | none => wp1
      else wp1
    (wp2, [.wsBroadcastSpyEvent m.steamId wp2.name .offline, .pushAlert, .saveWatched])
  else (wp1, [])

/-- One iteration of `updateSpyFromTeam`'s loop over team members
(src/bot.js lines 220-249): update the roster entry, then the watched
record when the member is watched. -/
def teamStep (now : Int) (st : SpyState) (m : TeamMember) : SpyState × List Effect :=
  match mapLookup m.steamId st.watched with
  | none =>
    (⟨st.watched, mapSet m.steamId ⟨jsOr m.name "Unknown", m.isOnline, false⟩ st.roster⟩, [])
  | some wp =>
    (⟨mapSet m.steamId (updateSpyOne now m wp).1 st.watched,
      mapSet m.steamId ⟨jsOr m.name "Unknown", m.isOnline, false⟩ st.roster⟩,
     (updateSpyOne now m wp).2)

/-- `updateSpyFromTeam(members)` (src/bot.js lines 218-250), with `Date.now()`
passed in as `now`; processes the members in order. -/
def updateSpyFromTeam (now : Int) (members : List TeamMember) (st : SpyState) :
    SpyState × List Effect :=
  match members with
  | [] => (st, [])
  | m :: rest =>
    ((updateSpyFromTeam now rest (teamStep now st m).1).1,
     (teamStep now st m).2 ++ (updateSpyFromTeam now rest (teamStep now st m).1).2)

/-- One BattleMetrics roster entry delivered by the poll (`p.id`,
`p.attributes?.name`). -/
structure BMPlayer where
  id : String
  name : Option String
  deriving DecidableEq, Repr

/-- `p.attributes?.name || 'Unknown'`. -/
def bmName (p : BMPlayer) : String :=
  match p.name with
  | some n => jsOr n "Unknown"
  | none => "Unknown"

/-- The watched-player update of `fetchBMPlayers` for one `bm_`-namespaced
watched record (src/bot.js lines 320-340): note there is no save effect. -/
def bmUpdateOne (now : Int) (onlineIds : List String) (key : String) (wp : WatchedPlayer) :
    WatchedPlayer × List Effect :=
  let nowOnline := onlineIds.contains key
  let wp1 := { wp with online := nowOnline }
  if !wp.online && nowOnline then
    ({ wp1 with currentSessionStart := some now },
     [.wsBroadcastSpyEvent key wp1.name .online, .pushAlert])
  else if wp.online && !nowOnline then
    let wp2 :=
      if truthyTime wp1.currentSessionStart then
        match wp1.currentSessionStart with
        | some s =>
          { wp1 with sessions := wp1.sessions ++ [⟨s, now, now - s⟩],
                     totalMs := wp1.totalMs + (now - s),
                     currentSessionStart := none }
        | none => wp1
      else wp1
    (wp2, [.wsBroadcastSpyEvent key wp2.name .offline])
  else (wp1, [])

/-- The roster merge of `fetchBMPlayers` (src/bot.js lines 297-316): mark all
listed players online (adding fresh ones with `fromBM: true`), then mark every
`bm_`-prefixed roster entry missing from the listing offline. -/
def bmMergeRoster (players : List BMPlayer) (onlineIds : List String)
    (roster : List (String × RosterEntry)) : List (String × RosterEntry) :=
  let r1 := players.foldl (fun r p =>
    let key := "bm_" ++ p.id
    match mapLookup key r with
    | none => mapSet key ⟨bmName p, true, true⟩ r
    | some e => mapSet key ⟨bmName p, true, e.fromBM⟩ r) roster
  r1.map (fun kv =>
    if isBMKey kv.1 && !onlineIds.contains kv.1 then
      (kv.1, { kv.2 with online := false })
    else kv)

/-- The per-entry watched update of `fetchBMPlayers`: only `bm_` keys are
touched. -/
def bmWatchedStep (now : Int) (onlineIds : List String) (kv : String × WatchedPlayer) :
    (String × WatchedPlayer) × List Effect :=
  if isBMKey kv.1 then
    ((kv.1, (bmUpdateOne now onlineIds kv.1 kv.2).1), (bmUpdateOne now onlineIds kv.1 kv.2).2)
  else (kv, [])

/-- The successful-parse body of `fetchBMPlayers` (src/bot.js lines 292-342):
merge the roster, update `bm_`-watched players, then `pushState()`. -/
def bmApply (now : Int) (players : List BMPlayer) (st : SpyState) : SpyState × List Effect :=
  let onlineIds := players.map (fun p => "bm_" ++ p.id)
  let roster := bmMergeRoster players onlineIds st.roster
  let watched := st.watched.map (fun kv => (bmWatchedStep now onlineIds kv).1)
  let effs := (st.watched.map (fun kv => (bmWatchedStep now onlineIds kv).2)).flatten
  (⟨watched, roster⟩, effs ++ [.wsBroadcastState])

/-- Outcome of one BattleMetrics poll: the HTTPS request errors, the response
body fails `JSON.parse`, or it parses to a player list. -/
inductive BMOutcome
  | netError
  | parseError
  | ok (players : List BMPlayer)
  deriving DecidableEq, Repr

/-- `fetchBMPlayers()` (src/bot.js lines 284-346): the `error` handler and the
`catch` arm only log, so both failure outcomes leave the state untouched and
emit nothing. -/
def fetchBMPlayers (outcome : BMOutcome) (now : Int) (st : SpyState) :
    SpyState × List Effect :=
  match outcome with
  | .netError => (st, [])
  | .parseError => (st, [])
  | .ok players => bmApply now players st

/-- `addWatch(steamId, name)` (src/bot.js lines 203-211); returns the new
state with ok flag and message. -/
def addWatch (now : Int) (steamId name : String) (st : SpyState) :
    SpyState × Bool × String :=
  if steamId = "" then (st, false, "Invalid Steam ID")
  else if (mapLookup steamId st.watched).isSome then
    (st, false, "Already watching " ++ name)
  else
    let fresh : WatchedPlayer := ⟨steamId, name, now, false, 0, none, []⟩
    ({ st with watched := mapSet steamId fresh st.watched }, true, "")

/-- The per-record transform of `saveWatchedPlayers` (src/bot.js lines
160-169): finalise any open session into `sessions`/`totalMs` but keep
`currentSessionStart` in the persisted copy. -/
def saveEntry (now : Int) (wp : WatchedPlayer) : WatchedPlayer :=
  if truthyTime wp.currentSessionStart then
    match wp.currentSessionStart with
    | some s =>
      { wp with sessions := wp.sessions ++ [⟨s, now, now - s⟩],
                totalMs := wp.totalMs + (now - s) }
    | none => wp
  else wp

/-- The per-record transform of `loadWatchedPlayers` (src/bot.js lines
179-190): entries without a steamId are skipped; `online` is reset to false
and `currentSessionStart` to null. -/
def loadEntry (nowLoad : Int) (wp : WatchedPlayer) : Option WatchedPlayer :=
  if wp.steamId = "" then none
  else some
    { steamId := wp.steamId,
      name := jsOr wp.name "Unknown",
      addedAt := jsOrInt wp.addedAt nowLoad,
      online := false,
      totalMs := wp.totalMs,
      currentSessionStart := none,
      sessions := wp.sessions }

/-- One normalized observation: a team-roster snapshot from the primary feed,
or one BattleMetrics poll outcome, each carrying its `Date.now()`. -/
inductive Obs
  | team (now : Int) (members : List TeamMember)
  | bmPoll (now : Int) (outcome : BMOutcome)
  deriving DecidableEq, Repr

/-- The timestamp an observation is processed at. -/
def Obs.time : Obs → Int
  | .team now _ => now
  | .bmPoll now _ => now

/-- Process one observation. -/
def processObs (o : Obs) (st : SpyState) : SpyState × List Effect :=
  match o with
  | .team now members => updateSpyFromTeam now members st
  | .bmPoll now outcome => fetchBMPlayers outcome now st

/-- Process a sequence of observations in order, concatenating effects. -/
def runObs (os : List Obs) (st : SpyState) : SpyState × List Effect :=
  match os with
  | [] => (st, [])
  | o :: rest =>
    ((runObs rest (processObs o st).1).1,
     (processObs o st).2 ++ (runObs rest (processObs o st).1).2)

/-- The session invariant of one watched record: `online` iff
`currentSessionStart` is non-null, and any stored session start is a positive
timestamp (true of every `Date.now()` value). -/
def wpInv (wp : WatchedPlayer) : Bool :=
  (wp.online == !wp.currentSessionStart.isNone) &&
  (match wp.currentSessionStart with
   | none => true
   | some s => decide (0 < s))

/-! ## Join-request / member ledger (src/bot.js lines 354-388, 440-491,
539-587, 661-738, 866-873)

String fields use `""` for a JS absent/falsy value. -/

/-- An inbound join submission (`msg.request` / the POST /join body). -/
structure JoinSubmission where
  id : String
  name : String
  username : String
  steam : String
  discord : String
  password : String
  passcode : String
  deriving DecidableEq, Repr

/-- A stored join request. `passwordHash` is `Option` so that the
field-stripping done by `buildState` is expressible. -/
structure JoinRequest where
  id : String
  name : String
  username : String
  steam : String
  discord : String
  status : String
  receivedAt : Int
  passwordHash : Option String
  approvedAt : Option Int
  deniedAt : Option Int
  deriving DecidableEq, Repr

/-- An approved clan member record. -/
structure Member where
  id : String
  name : String
  username : String
  steam : String
  discord : String
  passwordHash : String
  role : String
  status : String
  approvedAt : Int
  lastLogin : Option Int
  deriving DecidableEq, Repr

/-- The ledger's mutable state: `joinRequests` and `clanMembers`. -/
structure LedgerState where
  joinRequests : List JoinRequest
  clanMembers : List Member
  deriving DecidableEq, Repr

/-- A reified side effect of a ledger operation. -/
inductive LedgerEffect
  | sendError (msg : String)
  | sendJoinResult (ok : Bool) (msg : String)
  | saveJoinRequests
  | saveClanMembers
  | broadcastStateUpdate (requests : List JoinRequest)
  | broadcastNewJoinRequest (r : JoinRequest)
  | discordLog
  deriving DecidableEq, Repr

/-- `(x.username || x.name).toLowerCase()`: the case-folded login handle. -/
def reqHandle (username name : String) : String := lowerStr (jsOr username name)

/-- The `joinRequests` field of `buildState()` (src/bot.js line 868): the
stored requests with `passwordHash` stripped. -/
def buildStateRequests (st : LedgerState) : List JoinRequest :=
  st.joinRequests.map (fun r => { r with passwordHash := none })

/-- Number of stored requests with the given case-folded handle and status
pending (used to state uniqueness of pending handles). -/
def countPendingHandle (key : String) (l : List JoinRequest) : Nat :=
  (l.filter (fun r => decide (reqHandle r.username r.name = key ∧ r.status = "pending"))).length

/-- `joinRequests.find(r => (r.username||r.name).toLowerCase()===key &&
r.status==='pending')` as a Bool. -/
def hasPendingDup (key : String) (l : List JoinRequest) : Bool :=
  l.any (fun r => decide (reqHandle r.username r.name = key ∧ r.status = "pending"))

/-- `clanMembers.find(m => (m.username||m.name).toLowerCase()===key &&
m.status==='approved')` as a Bool. -/
def hasMemberDup (key : String) (l : List Member) : Bool :=
  l.any (fun m => decide (reqHandle m.username m.name = key ∧ m.status = "approved"))

/-- The `submitJoinRequest` dashboard action (src/bot.js lines 661-694):
validate, duplicate-check against pending requests and approved members,
then unshift the stored request and emit save/result/broadcast effects. -/
def submitJoinRequest (now : Int) (req : JoinSubmission) (st : LedgerState) :
    LedgerState × List LedgerEffect :=
  if req.id = "" ∨ req.name = "" then (st, [.sendError "Invalid join request"])
  else
    let plainPw := jsOr req.password req.passcode
    if plainPw = "" then (st, [.sendError "Password/passcode required"])
    else
      let dupeKey := reqHandle req.username req.name
      if hasPendingDup dupeKey st.joinRequests then
        (st, [.sendJoinResult false "A request for that username is already pending"])
      else if hasMemberDup dupeKey st.clanMembers then
        (st, [.sendJoinResult false "That username already has an account"])
      else
        let jr : JoinRequest := ⟨req.id, req.name, req.username, req.steam, req.discord,
          "pending", now, some (base64Encode plainPw), none, none⟩
        let st2 := { st with joinRequests := jr :: st.joinRequests }
        (st2, [.saveJoinRequests, .sendJoinResult true "",
               .broadcastStateUpdate (buildStateRequests st2),
               .broadcastNewJoinRequest jr, .discordLog])

/-- The POST /join handler (src/bot.js lines 442-491): same checks and
storage as `submitJoinRequest`, with the HTTP response as the last effect. -/
def postJoin (now : Int) (req : JoinSubmission) (st : LedgerState) :
    LedgerState × List LedgerEffect :=
  if req.id = "" ∨ req.name = "" then (st, [.sendJoinResult false "Invalid request"])
  else
    let plainPw := jsOr req.password req.passcode
    if plainPw = "" then (st, [.sendJoinResult false "Password required"])
    else
      let key := reqHandle req.username req.name
      if hasPendingDup key st.joinRequests then
        (st, [.sendJoinResult false "A request with that username is already pending"])
      else if hasMemberDup key st.clanMembers then
        (st, [.sendJoinResult false "That username already has an account"])
      else
        let jr : JoinRequest := ⟨req.id, req.name, req.username, req.steam, req.discord,
          "pending", now, some (base64Encode plainPw), none, none⟩
        let st2 := { st with joinRequests := jr :: st.joinRequests }
        (st2, [.saveJoinRequests,
               .broadcastStateUpdate (buildStateRequests st2),
               .broadcastNewJoinRequest jr, .discordLog, .sendJoinResult true ""])

/-- An `updateJoinRequest` action (src/bot.js lines 696-738). -/
inductive ReqAction
  | approve
  | deny
  | delete
  | removeMember
  deriving DecidableEq, Repr

/-- `joinRequests.findIndex(r => r.id === id)` followed by reading the entry:
the first request with the given id. -/
def findReq (id : String) : List JoinRequest → Option JoinRequest
  | [] => none
  | r :: rest => if r.id = id then some r else findReq id rest

/-- In-place mutation of the first request with the given id. -/
def updateFirstReq (id : String) (f : JoinRequest → JoinRequest) :
    List JoinRequest → List JoinRequest
  | [] => []
  | r :: rest => if r.id = id then f r :: rest else r :: updateFirstReq id f rest

/-- `joinRequests.splice(idx, 1)` at the first match. -/
def deleteFirstReq (id : String) : List JoinRequest → List JoinRequest
  | [] => []
  | r :: rest => if r.id = id then rest else r :: deleteFirstReq id rest

/-- The member record pushed on approval (src/bot.js lines 707-719). -/
def mkMember (now : Int) (req : JoinRequest) : Member :=
  ⟨req.id, req.name, jsOr req.username req.name, jsOr req.steam "—", req.discord,
   req.passwordHash.getD "", "member", "approved", now, none⟩

/-- The member-creation half of the approve action (src/bot.js lines
705-723): push a member only when no member already has the handle. -/
def approveMember (now : Int) (req : JoinRequest) (members : List Member) :
    List Member × List LedgerEffect :=
  let memberKey := reqHandle req.username req.name
  if members.any (fun m => decide (reqHandle m.username m.name = memberKey)) then
    (members, [])
  else
    (members ++ [mkMember now req], [.saveClanMembers, .discordLog])

/-- `updateJoinRequest` (src/bot.js lines 696-738): find the request by id and
apply the action; every action ends with a requests save and a state
broadcast. The action sets the status unconditionally — it never inspects the
current status. -/
def updateJoinRequest (now : Int) (id : String) (action : ReqAction) (st : LedgerState) :
    LedgerState × List LedgerEffect :=
  match findReq id st.joinRequests with
  | none => (st, [.sendError "Request not found"])
  | some req =>
    let stepResult : LedgerState × List LedgerEffect :=
      match action with
      | .approve =>
        let req2 := { req with status := "approved", approvedAt := some now }
        let reqs2 :=
          updateFirstReq id (fun r => { r with status := "approved", approvedAt := some now })
            st.joinRequests
        ({ joinRequests := reqs2, clanMembers := (approveMember now req2 st.clanMembers).1 },
         (approveMember now req2 st.clanMembers).2)
      | .deny =>
        let reqs2 :=
          updateFirstReq id (fun r => { r with status := "denied", deniedAt := some now })
            st.joinRequests
        ({ st with joinRequests := reqs2 }, [])
      | .delete =>
        ({ st with joinRequests := deleteFirstReq id st.joinRequests }, [])
      | .removeMember =>
        ({ joinRequests := st.joinRequests.filter (fun r => decide (¬ r.id = id)),
           clanMembers := st.clanMembers.filter (fun m => decide (¬ m.id = id)) },
         [.saveClanMembers])
    (stepResult.1, stepResult.2 ++
      [.saveJoinRequests, .broadcastStateUpdate (buildStateRequests stepResult.1)])

/-! ## Dashboard fan-out hub (src/bot.js lines 592-611)

`wss.on('connection')` adds the socket to `wsClients` and synchronously sends
a `fullState` snapshot; `wsBroadcast` sends to every currently connected
socket; `close`/`error` remove the socket. Each client is modelled with its
received-message list. -/

/-- A message a dashboard client can receive: the one-time snapshot or a
broadcast event. -/
inductive HubMsg (S E : Type)
  | snapshot (s : S)
  | event (e : E)
  deriving DecidableEq, Repr

/-- An operation on the hub: a client connects (and is immediately sent the
snapshot `s` built at that moment), an event is broadcast, or a client
disconnects. -/
inductive HubOp (S E : Type)
  | connect (cid : Nat) (s : S)
  | publish (e : E)
  | disconnect (cid : Nat)
  deriving DecidableEq, Repr

/-- The hub state: each connected client id with its received messages. -/
abbrev HubState (S E : Type) := List (Nat × List (HubMsg S E))

/-- One hub operation applied to the client set. -/
def hubStep {S E : Type} (st : HubState S E) : HubOp S E → HubState S E
  | .connect c s => st ++ [(c, [.snapshot s])]
  | .publish e => st.map (fun p => (p.1, p.2 ++ [.event e]))
  | .disconnect c => st.filter (fun p => decide (¬ p.1 = c))

/-- Run a sequence of hub operations. -/
def runHub {S E : Type} (ops : List (HubOp S E)) (st : HubState S E) : HubState S E :=
  ops.foldl hubStep st

/-- The events published by a trace, in order, as received messages. -/
def publishedEvents {S E : Type} : List (HubOp S E) → List (HubMsg S E)
  | [] => []
  | .publish e :: rest => .event e :: publishedEvents rest
  | .connect _ _ :: rest => publishedEvents rest
  | .disconnect _ :: rest => publishedEvents rest

/-- Whether an operation connects or disconnects the given client. -/
def touches {S E : Type} (c : Nat) : HubOp S E → Bool
  | .connect c2 _ => decide (c2 = c)
  | .disconnect c2 => decide (c2 = c)
  | .publish _ => false

end RustBot

/-! ## Generic association-list lemmas -/

namespace RustBot

theorem forall_mapSet {κ α : Type} [DecidableEq κ] {P : α → Prop} {k : κ} {v : α}
    {l : List (κ × α)} (hl : ∀ kv ∈ l, P kv.2) (hv : P v) :
    ∀ kv ∈ mapSet k v l, P kv.2 := by
  induction l with
  | nil =>
    intro kv hkv
    simp only [mapSet, List.mem_singleton] at hkv
    subst hkv; exact hv
  | cons hd tl ih =>
    intro kv hkv
    simp only [mapSet] at hkv
    split at hkv
    · rcases List.mem_cons.mp hkv with h1 | hmem
      · subst h1; exact hv
      · exact hl kv (List.mem_cons_of_mem hd hmem)
    · rcases List.mem_cons.mp hkv with h1 | hmem
      · subst h1; exact hl hd (List.mem_cons_self _ _)
      · exact ih (fun kv2 h2 => hl kv2 (List.mem_cons_of_mem hd h2)) kv hmem

theorem forall_mapLookup {κ α : Type} [DecidableEq κ] {P : α → Prop} {k : κ} {v : α}
    {l : List (κ × α)} (hl : ∀ kv ∈ l, P kv.2) (h : mapLookup k l = some v) : P v := by
  induction l with
  | nil => simp [mapLookup] at h
  | cons hd tl ih =>
    simp only [mapLookup] at h
    split at h
    · cases h
      exact hl hd (List.mem_cons_self _ _)
    · exact ih (fun kv2 h2 => hl kv2 (List.mem_cons_of_mem hd h2)) h

/-! ## C1: the presence/session-start invariant -/

theorem wpInv_updateSpyOne (now : Int) (m : TeamMember) (wp : WatchedPlayer)
    (hnow : 0 < now) (h : wpInv wp = true) : wpInv (updateSpyOne now m wp).1 = true := by
  rcases hcs : wp.currentSessionStart with _ | s <;>
    cases hon : wp.online <;> cases hmo : m.isOnline <;>
      simp_all [wpInv, updateSpyOne, truthyTime]
  have hs0 : ¬ s = 0 := by omega
  simp [hs0]

theorem wpInv_bmUpdateOne (now : Int) (ids : List String) (key : String) (wp : WatchedPlayer)
    (hnow : 0 < now) (h : wpInv wp = true) : wpInv (bmUpdateOne now ids key wp).1 = true := by
  rcases hcs : wp.currentSessionStart with _ | s <;>
    cases hon : wp.online <;> cases hc : ids.contains key <;>
      simp_all [wpInv, bmUpdateOne, truthyTime]
  have hs0 : ¬ s = 0 := by omega
  simp [hs0]

theorem inv_teamStep (now : Int) (m : TeamMember) (st : SpyState) (hnow : 0 < now)
    (h : ∀ kv ∈ st.watched, wpInv kv.2 = true) :
    ∀ kv ∈ (teamStep now st m).1.watched, wpInv kv.2 = true := by
  unfold teamStep
  cases hl : mapLookup m.steamId st.watched with
  | none => exact h
  | some wp =>
    exact forall_mapSet (P := fun v => wpInv v = true) h
      (wpInv_updateSpyOne now m wp hnow
        (forall_mapLookup (P := fun v => wpInv v = true) h hl))

theorem inv_updateSpyFromTeam (now : Int) (members : List TeamMember) (hnow : 0 < now) :
    ∀ st : SpyState, (∀ kv ∈ st.watched, wpInv kv.2 = true) →
      ∀ kv ∈ (updateSpyFromTeam now members st).1.watched, wpInv kv.2 = true := by
  induction members with
  | nil => intro st h; simpa [updateSpyFromTeam] using h
  | cons m rest ih =>
    intro st h
    simp only [updateSpyFromTeam]
    exact ih (teamStep now st m).1 (inv_teamStep now m st hnow h)

theorem inv_bmApply (now : Int) (players : List BMPlayer) (st : SpyState) (hnow : 0 < now)
    (h : ∀ kv ∈ st.watched, wpInv kv.2 = true) :
    ∀ kv ∈ (bmApply now players st).1.watched, wpInv kv.2 = true := by
  simp only [bmApply]
  intro kv hkv
  rcases List.mem_map.mp hkv with ⟨kv0, hkv0, rfl⟩
  have h0 := h kv0 hkv0
  unfold bmWatchedStep
  split
  · exact wpInv_bmUpdateOne now _ kv0.1 kv0.2 hnow h0
  · exact h0

theorem inv_processObs (o : Obs) (st : SpyState) (hnow : 0 < o.time)
    (h : ∀ kv ∈ st.watched, wpInv kv.2 = true) :
    ∀ kv ∈ (processObs o st).1.watched, wpInv kv.2 = true := by
  cases o with
  | team now members => exact inv_updateSpyFromTeam now members hnow st h
  | bmPoll now outcome =>
    cases outcome with
    | netError => simpa [processObs, fetchBMPlayers] using h
    | parseError => simpa [processObs, fetchBMPlayers] using h
    | ok players => exact inv_bmApply now players st hnow h

theorem inv_runObs (os : List Obs) :
    ∀ st : SpyState, (∀ o ∈ os, 0 < o.time) → (∀ kv ∈ st.watched, wpInv kv.2 = true) →
      ∀ kv ∈ (runObs os st).1.watched, wpInv kv.2 = true := by
  induction os with
  | nil => intro st _ h; simpa [runObs] using h
  | cons o rest ih =>
    intro st hpos h
    simp only [runObs]
    exact ih (processObs o st).1 (fun o2 h2 => hpos o2 (List.mem_cons_of_mem o h2))
      (inv_processObs o st (hpos o (List.mem_cons_self _ _)) h)

theorem wpInv_iff (wp : WatchedPlayer) (h : wpInv wp = true) :
    wp.online = true ↔ wp.currentSessionStart ≠ none := by
  rcases hcs : wp.currentSessionStart with _ | s <;> cases hon : wp.online <;>
    simp_all [wpInv]

/-- C1: for every watched identity and every sequence of processed
observations (primary team-roster snapshots and secondary poll results,
processed at positive `Date.now()` timestamps), starting from any state whose
watched records satisfy the session invariant (as freshly added or reloaded
records do), after the observations are processed every watched record has
`online = true` iff `currentSessionStart` is non-null. -/
theorem spy_presence_invariant (os : List Obs) (st : SpyState)
    (hpos : ∀ o ∈ os, 0 < o.time)
    (hinv : ∀ kv ∈ st.watched, wpInv kv.2 = true) :
    ∀ kv ∈ (runObs os st).1.watched,
      kv.2.online = true ↔ kv.2.currentSessionStart ≠ none := by
  intro kv hkv
  exact wpInv_iff kv.2 (inv_runObs os st hpos hinv kv hkv)

/-- Witness for C1: a concrete watch taken through an online team snapshot, a
successful poll, an offline team snapshot and a failed poll. -/
theorem spy_presence_invariant_witness :
    (∀ o ∈ [Obs.team 6000 [⟨"76561198000000001", "Target", true⟩],
            Obs.bmPoll 7000 (.ok [⟨"42", some "Evil"⟩]),
            Obs.team 606000 [⟨"76561198000000001", "Target", false⟩],
            Obs.bmPoll 700000 .netError], 0 < o.time) ∧
    (∀ kv ∈ ((addWatch 1000 "76561198000000001" "Target" ⟨[], []⟩).1).watched,
      wpInv kv.2 = true) ∧
    (∀ kv ∈ (runObs [Obs.team 6000 [⟨"76561198000000001", "Target", true⟩],
            Obs.bmPoll 7000 (.ok [⟨"42", some "Evil"⟩]),
            Obs.team 606000 [⟨"76561198000000001", "Target", false⟩],
            Obs.bmPoll 700000 .netError]
          (addWatch 1000 "76561198000000001" "Target" ⟨[], []⟩).1).1.watched,
      kv.2.online = true ↔ kv.2.currentSessionStart ≠ none) :=
  ⟨by decide, by decide, spy_presence_invariant _ _ (by decide) (by decide)⟩

end RustBot

/-! ## C2: closing a session appends exactly one entry -/

namespace RustBot

/-- C2: whenever a watched identity that is online (with open session started
at `s > 0`) receives an offline observation at time `now` — on the primary
team path or the secondary poll path — exactly one entry
`{start := s, stop := now, ms := now - s}` is appended to its session list,
its cumulative total increases by exactly `now - s`, it goes offline and the
open-session field is cleared. -/
theorem spy_close_session (now s : Int) (m : TeamMember) (ids : List String)
    (key : String) (wp : WatchedPlayer)
    (hon : wp.online = true) (hs : wp.currentSessionStart = some s) (hspos : 0 < s)
    (hmoff : m.isOnline = false) (hkey : ids.contains key = false) :
    ((updateSpyOne now m wp).1.sessions = wp.sessions ++ [⟨s, now, now - s⟩] ∧
     (updateSpyOne now m wp).1.totalMs = wp.totalMs + (now - s) ∧
     (updateSpyOne now m wp).1.online = false ∧
     (updateSpyOne now m wp).1.currentSessionStart = none) ∧
    ((bmUpdateOne now ids key wp).1.sessions = wp.sessions ++ [⟨s, now, now - s⟩] ∧
     (bmUpdateOne now ids key wp).1.totalMs = wp.totalMs + (now - s) ∧
     (bmUpdateOne now ids key wp).1.online = false ∧
     (bmUpdateOne now ids key wp).1.currentSessionStart = none) := by
  have hs0 : ¬ s = 0 := by omega
  have hkey2 : ¬ key ∈ ids := by simpa using hkey
  constructor <;>
    simp [updateSpyOne, bmUpdateOne, hon, hs, hmoff, hkey2, truthyTime, hs0]

/-- Witness for C2, the spec scenario: watched at `t0 = 1000`, online at
`t1 = 6000`, offline at `t2 = 606000`; one session of 600000 ms results. -/
theorem spy_close_session_witness :
    ((updateSpyOne 606000 ⟨"76561198000000001", "Target", false⟩
        ⟨"76561198000000001", "Target", 1000, true, 0, some 6000, []⟩).1.sessions =
        [⟨6000, 606000, 600000⟩] ∧
     (updateSpyOne 606000 ⟨"76561198000000001", "Target", false⟩
        ⟨"76561198000000001", "Target", 1000, true, 0, some 6000, []⟩).1.totalMs = 600000 ∧
     (updateSpyOne 606000 ⟨"76561198000000001", "Target", false⟩
        ⟨"76561198000000001", "Target", 1000, true, 0, some 6000, []⟩).1.online = false ∧
     (updateSpyOne 606000 ⟨"76561198000000001", "Target", false⟩
        ⟨"76561198000000001", "Target", 1000, true, 0, some 6000, []⟩).1.currentSessionStart
        = none) ∧
    ((bmUpdateOne 606000 [] "bm_7"
        ⟨"76561198000000001", "Target", 1000, true, 0, some 6000, []⟩).1.sessions =
        [⟨6000, 606000, 600000⟩] ∧
     (bmUpdateOne 606000 [] "bm_7"
        ⟨"76561198000000001", "Target", 1000, true, 0, some 6000, []⟩).1.totalMs = 600000 ∧
     (bmUpdateOne 606000 [] "bm_7"
        ⟨"76561198000000001", "Target", 1000, true, 0, some 6000, []⟩).1.online = false ∧
     (bmUpdateOne 606000 [] "bm_7"
        ⟨"76561198000000001", "Target", 1000, true, 0, some 6000, []⟩).1.currentSessionStart
        = none) := by
  simpa using spy_close_session 606000 6000 ⟨"76561198000000001", "Target", false⟩ [] "bm_7"
    ⟨"76561198000000001", "Target", 1000, true, 0, some 6000, []⟩
    rfl rfl (by decide) rfl (by decide)

/-! ## C3: the save/load round trip -/

/-- C3 counterexample: an identity mid-session (start 100, totalMs 500) is
persisted with its session finalised into `totalMs`, and reloading resets
`currentSessionStart` to null and yields `totalMs = 1100 ≠ 500` — the claim
fails on both counts. -/
theorem load_resets_session_counterexample :
    (saveEntry 700 ⟨"s1", "Foo", 5, true, 500, some 100, []⟩).currentSessionStart = some 100 ∧
    loadEntry 800 (saveEntry 700 ⟨"s1", "Foo", 5, true, 500, some 100, []⟩) =
      some ⟨"s1", "Foo", 5, false, 1100, none, [⟨100, 700, 600⟩]⟩ ∧
    ¬ ((1100 : Int) = 500) := by decide

/-- C3 amended: saving finalises any open session (appending it and adding
its duration to `totalMs`, while keeping `currentSessionStart` in the
persisted copy), and loading resets `online` to false and
`currentSessionStart` to null; so the round trip of a mid-session identity
ends with a null session-start and `totalMs` increased by the save-time
duration of the open session. -/
theorem save_load_round_trip (nowSave nowLoad s : Int) (wp : WatchedPlayer)
    (hid : ¬ wp.steamId = "") (hs : wp.currentSessionStart = some s) (hs0 : ¬ s = 0) :
    loadEntry nowLoad (saveEntry nowSave wp) =
      some { steamId := wp.steamId, name := jsOr wp.name "Unknown",
             addedAt := jsOrInt wp.addedAt nowLoad, online := false,
             totalMs := wp.totalMs + (nowSave - s), currentSessionStart := none,
             sessions := wp.sessions ++ [⟨s, nowSave, nowSave - s⟩] } := by
  simp [saveEntry, loadEntry, hs, hs0, truthyTime, hid]

/-- Witness for the amended C3 at a concrete record. -/
theorem save_load_round_trip_witness :
    loadEntry 9000 (saveEntry 8000 ⟨"id9", "Bar", 7, true, 40, some 7500, []⟩) =
      some ⟨"id9", "Bar", 7, false, 540, none, [⟨7500, 8000, 500⟩]⟩ := by
  simpa using save_load_round_trip 8000 9000 7500 ⟨"id9", "Bar", 7, true, 40, some 7500, []⟩
    (by decide) rfl (by decide)

/-! ## C4: a failed poll is a no-op -/

/-- C4: a BattleMetrics poll that fails with a network error or a parse error
leaves the whole spy state untouched and emits no effect; in particular every
watched secondary-namespaced identity keeps its exact record. -/
theorem bm_failed_poll_noop (now : Int) (st : SpyState) (key : String) (wp : WatchedPlayer)
    (h : mapLookup key st.watched = some wp) :
    fetchBMPlayers .netError now st = (st, []) ∧
    fetchBMPlayers .parseError now st = (st, []) ∧
    mapLookup key (fetchBMPlayers .netError now st).1.watched = some wp ∧
    mapLookup key (fetchBMPlayers .parseError now st).1.watched = some wp :=
  ⟨rfl, rfl, h, h⟩

/-- Witness for C4 at a concrete watched `bm_` identity. -/
theorem bm_failed_poll_noop_witness :
    fetchBMPlayers .netError 50 ⟨[("bm_3", ⟨"bm_3", "Baz", 1, true, 2, some 30, []⟩)], []⟩ =
      (⟨[("bm_3", ⟨"bm_3", "Baz", 1, true, 2, some 30, []⟩)], []⟩, []) ∧
    fetchBMPlayers .parseError 50 ⟨[("bm_3", ⟨"bm_3", "Baz", 1, true, 2, some 30, []⟩)], []⟩ =
      (⟨[("bm_3", ⟨"bm_3", "Baz", 1, true, 2, some 30, []⟩)], []⟩, []) ∧
    mapLookup "bm_3" (fetchBMPlayers .netError 50
        ⟨[("bm_3", ⟨"bm_3", "Baz", 1, true, 2, some 30, []⟩)], []⟩).1.watched =
      some ⟨"bm_3", "Baz", 1, true, 2, some 30, []⟩ ∧
    mapLookup "bm_3" (fetchBMPlayers .parseError 50
        ⟨[("bm_3", ⟨"bm_3", "Baz", 1, true, 2, some 30, []⟩)], []⟩).1.watched =
      some ⟨"bm_3", "Baz", 1, true, 2, some 30, []⟩ :=
  bm_failed_poll_noop 50 _ "bm_3" _ (by decide)

/-! ## C5: which transitions trigger a store write -/

/-- C5 counterexample: a successful poll that takes a watched `bm_` identity
from online to offline broadcasts the transition and a state update but emits
no watched-store write, contradicting the claim that every transition
triggers an immediate persistence write. -/
theorem bm_transition_without_save :
    (mapLookup "bm_1" (⟨[("bm_1", ⟨"bm_1", "Foo", 5, true, 0, some 10, []⟩)], []⟩ :
        SpyState).watched).map (fun wp => wp.online) = some true ∧
    (mapLookup "bm_1" (fetchBMPlayers (.ok []) 20
        ⟨[("bm_1", ⟨"bm_1", "Foo", 5, true, 0, some 10, []⟩)], []⟩).1.watched).map
      (fun wp => wp.online) = some false ∧
    (fetchBMPlayers (.ok []) 20
        ⟨[("bm_1", ⟨"bm_1", "Foo", 5, true, 0, some 10, []⟩)], []⟩).2 =
      [.wsBroadcastSpyEvent "bm_1" "Foo" .offline, .wsBroadcastState] ∧
    Effect.saveWatched ∉ (fetchBMPlayers (.ok []) 20
        ⟨[("bm_1", ⟨"bm_1", "Foo", 5, true, 0, some 10, []⟩)], []⟩).2 := by decide

/-- C5 amended: each primary-feed presence transition synchronously emits a
broadcast, an alert and a watched-store write, in that order; each
secondary-poll transition synchronously emits a broadcast (plus an alert when
going online) but never a watched-store write. -/
theorem transition_effect_lists (now : Int) (m : TeamMember) (ids : List String)
    (key : String) (wp : WatchedPlayer) :
    (wp.online = false → m.isOnline = true →
      (updateSpyOne now m wp).2 =
        [.wsBroadcastSpyEvent m.steamId (jsOr m.name wp.name) .online, .pushAlert,
         .saveWatched]) ∧
    (wp.online = true → m.isOnline = false →
      (updateSpyOne now m wp).2 =
        [.wsBroadcastSpyEvent m.steamId (jsOr m.name wp.name) .offline, .pushAlert,
         .saveWatched]) ∧
    (wp.online = false → ids.contains key = true →
      (bmUpdateOne now ids key wp).2 =
        [.wsBroadcastSpyEvent key wp.name .online, .pushAlert]) ∧
    (wp.online = true → ids.contains key = false →
      (bmUpdateOne now ids key wp).2 = [.wsBroadcastSpyEvent key wp.name .offline]) ∧
    Effect.saveWatched ∉ (bmUpdateOne now ids key wp).2 := by
  refine ⟨?_, ?_, ?_, ?_, ?_⟩
  · intro h1 h2; simp [updateSpyOne, h1, h2]
  · intro h1 h2
    rcases hcs : wp.currentSessionStart with _ | s
    · simp [updateSpyOne, h1, h2, truthyTime, hcs]
    · by_cases hs0 : s = 0 <;> simp [updateSpyOne, h1, h2, truthyTime, hcs, hs0]
  · intro h1 h2
    have h2m : key ∈ ids := by simpa using h2
    simp [bmUpdateOne, h1, h2m]
  · intro h1 h2
    have h2m : ¬ key ∈ ids := by simpa using h2
    rcases hcs : wp.currentSessionStart with _ | s
    · simp [bmUpdateOne, h1, h2m, truthyTime, hcs]
    · by_cases hs0 : s = 0 <;> simp [bmUpdateOne, h1, h2m, truthyTime, hcs, hs0]
  · rcases hcs : wp.currentSessionStart with _ | s
    · cases hon : wp.online <;> by_cases hc : key ∈ ids <;>
        simp [bmUpdateOne, hon, hc, truthyTime, hcs]
    · by_cases hs0 : s = 0 <;> cases hon : wp.online <;> by_cases hc : key ∈ ids <;>
        simp [bmUpdateOne, hon, hc, truthyTime, hcs, hs0]

/-- Witness for the amended C5: each transition kind instantiated concretely. -/
theorem transition_effect_lists_witness :
    (updateSpyOne 5 ⟨"s1", "N", true⟩ ⟨"s1", "Old", 1, false, 0, none, []⟩).2 =
      [.wsBroadcastSpyEvent "s1" "N" .online, .pushAlert, .saveWatched] ∧
    (updateSpyOne 9 ⟨"s1", "N", false⟩ ⟨"s1", "Old", 1, true, 0, some 5, []⟩).2 =
      [.wsBroadcastSpyEvent "s1" "N" .offline, .pushAlert, .saveWatched] ∧
    (bmUpdateOne 5 ["bm_2"] "bm_2" ⟨"bm_2", "Old", 1, false, 0, none, []⟩).2 =
      [.wsBroadcastSpyEvent "bm_2" "Old" .online, .pushAlert] ∧
    (bmUpdateOne 9 [] "bm_2" ⟨"bm_2", "Old", 1, true, 0, some 5, []⟩).2 =
      [.wsBroadcastSpyEvent "bm_2" "Old" .offline] ∧
    Effect.saveWatched ∉ (bmUpdateOne 9 [] "bm_2" ⟨"bm_2", "Old", 1, true, 0, some 5, []⟩).2 := by
  refine ⟨?_, ?_, ?_, ?_, ?_⟩
  · simpa using (transition_effect_lists 5 ⟨"s1", "N", true⟩ [] "x"
      ⟨"s1", "Old", 1, false, 0, none, []⟩).1 rfl rfl
  · simpa using (transition_effect_lists 9 ⟨"s1", "N", false⟩ [] "x"
      ⟨"s1", "Old", 1, true, 0, some 5, []⟩).2.1 rfl rfl
  · simpa using (transition_effect_lists 5 ⟨"", "", true⟩ ["bm_2"] "bm_2"
      ⟨"bm_2", "Old", 1, false, 0, none, []⟩).2.2.1 rfl (by decide)
  · simpa using (transition_effect_lists 9 ⟨"", "", false⟩ [] "bm_2"
      ⟨"bm_2", "Old", 1, true, 0, some 5, []⟩).2.2.2.1 rfl (by decide)
  · exact (transition_effect_lists 9 ⟨"", "", false⟩ [] "bm_2"
      ⟨"bm_2", "Old", 1, true, 0, some 5, []⟩).2.2.2.2

end RustBot

/-! ## C6: case-insensitive duplicate-handle rejection -/

namespace RustBot

theorem submit_reject_unchanged (now : Int) (r : JoinSubmission) (stx : LedgerState)
    (hid : ¬ r.id = "") (hname : ¬ r.name = "") (hpw : ¬ jsOr r.password r.passcode = "")
    (hdup : hasPendingDup (reqHandle r.username r.name) stx.joinRequests = true ∨
            hasMemberDup (reqHandle r.username r.name) stx.clanMembers = true) :
    (submitJoinRequest now r stx).1 = stx ∧
    (∃ msg, (submitJoinRequest now r stx).2 = [.sendJoinResult false msg]) ∧
    (postJoin now r stx).1 = stx ∧
    (∃ msg, (postJoin now r stx).2 = [.sendJoinResult false msg]) := by
  rcases hdup with hd | hd
  · refine ⟨?_, ⟨"A request for that username is already pending", ?_⟩, ?_,
      ⟨"A request with that username is already pending", ?_⟩⟩ <;>
      simp [submitJoinRequest, postJoin, hid, hname, hpw, hd]
  · by_cases hp : hasPendingDup (reqHandle r.username r.name) stx.joinRequests = true
    · refine ⟨?_, ⟨"A request for that username is already pending", ?_⟩, ?_,
        ⟨"A request with that username is already pending", ?_⟩⟩ <;>
        simp [submitJoinRequest, postJoin, hid, hname, hpw, hp]
    · rw [Bool.not_eq_true] at hp
      refine ⟨?_, ⟨"That username already has an account", ?_⟩, ?_,
        ⟨"That username already has an account", ?_⟩⟩ <;>
        simp [submitJoinRequest, postJoin, hid, hname, hpw, hp, hd]

/-- C6: a submission whose handle equals, case-insensitively, the handle of a
pending request or of an approved member is rejected with a failure reason and
changes nothing (on both the WebSocket and the POST /join paths); and two
sequential submissions whose handles differ only by case yield exactly one
pending record and one rejection, because the duplicate check and the
insertion happen in one uninterrupted step. -/
theorem duplicate_handle_insertion (now now2 : Int) (r1 r2 : JoinSubmission) (st : LedgerState)
    (hid1 : ¬ r1.id = "") (hname1 : ¬ r1.name = "") (hpw1 : ¬ jsOr r1.password r1.passcode = "")
    (hid2 : ¬ r2.id = "") (hname2 : ¬ r2.name = "") (hpw2 : ¬ jsOr r2.password r2.passcode = "")
    (hkey : reqHandle r2.username r2.name = reqHandle r1.username r1.name)
    (hnp : hasPendingDup (reqHandle r1.username r1.name) st.joinRequests = false)
    (hnm : hasMemberDup (reqHandle r1.username r1.name) st.clanMembers = false)
    (hcount : countPendingHandle (reqHandle r1.username r1.name) st.joinRequests = 0) :
    (∀ (r : JoinSubmission) (stx : LedgerState), ¬ r.id = "" → ¬ r.name = "" →
      ¬ jsOr r.password r.passcode = "" →
      (hasPendingDup (reqHandle r.username r.name) stx.joinRequests = true ∨
       hasMemberDup (reqHandle r.username r.name) stx.clanMembers = true) →
      (submitJoinRequest now r stx).1 = stx ∧
      (∃ msg, (submitJoinRequest now r stx).2 = [.sendJoinResult false msg]) ∧
      (postJoin now r stx).1 = stx ∧
      (∃ msg, (postJoin now r stx).2 = [.sendJoinResult false msg])) ∧
    countPendingHandle (reqHandle r1.username r1.name)
      (submitJoinRequest now r1 st).1.joinRequests = 1 ∧
    (submitJoinRequest now2 r2 (submitJoinRequest now r1 st).1).1 =
      (submitJoinRequest now r1 st).1 ∧
    (submitJoinRequest now2 r2 (submitJoinRequest now r1 st).1).2 =
      [.sendJoinResult false "A request for that username is already pending"] := by
  have hst1 : (submitJoinRequest now r1 st).1 =
      ⟨⟨r1.id, r1.name, r1.username, r1.steam, r1.discord, "pending", now,
        some (base64Encode (jsOr r1.password r1.passcode)), none, none⟩ :: st.joinRequests,
       st.clanMembers⟩ := by
    simp [submitJoinRequest, hid1, hname1, hpw1, hnp, hnm]
  have hdup1 : hasPendingDup (reqHandle r2.username r2.name)
      (submitJoinRequest now r1 st).1.joinRequests = true := by
    rw [hst1, hkey]
    simp [hasPendingDup]
  rw [hst1] at hdup1
  refine ⟨fun r stx h1 h2 h3 h4 => submit_reject_unchanged now r stx h1 h2 h3 h4, ?_, ?_, ?_⟩
  · rw [hst1]
    simp only [countPendingHandle] at hcount ⊢
    rw [List.filter_cons, if_pos (by simp)]
    simp only [List.length_cons]
    omega
  · rw [hst1]
    simp [submitJoinRequest, hid2, hname2, hpw2, hdup1]
  · rw [hst1]
    simp [submitJoinRequest, hid2, hname2, hpw2, hdup1]

/-- Witness for C6: `Alice` then `aLiCe` against an empty ledger. -/
theorem duplicate_handle_insertion_witness :
    countPendingHandle (reqHandle "Alice" "Alice")
      (submitJoinRequest 10 ⟨"j1", "Alice", "Alice", "", "", "pw1", ""⟩
        ⟨[], []⟩).1.joinRequests = 1 ∧
    (submitJoinRequest 11 ⟨"j2", "Bob", "aLiCe", "", "", "pw2", ""⟩
        (submitJoinRequest 10 ⟨"j1", "Alice", "Alice", "", "", "pw1", ""⟩ ⟨[], []⟩).1).1 =
      (submitJoinRequest 10 ⟨"j1", "Alice", "Alice", "", "", "pw1", ""⟩ ⟨[], []⟩).1 ∧
    (submitJoinRequest 11 ⟨"j2", "Bob", "aLiCe", "", "", "pw2", ""⟩
        (submitJoinRequest 10 ⟨"j1", "Alice", "Alice", "", "", "pw1", ""⟩ ⟨[], []⟩).1).2 =
      [.sendJoinResult false "A request for that username is already pending"] :=
  (duplicate_handle_insertion 10 11 ⟨"j1", "Alice", "Alice", "", "", "pw1", ""⟩
    ⟨"j2", "Bob", "aLiCe", "", "", "pw2", ""⟩ ⟨[], []⟩ (by decide) (by decide) (by decide)
    (by decide) (by decide) (by decide) (by decide) rfl rfl rfl).2

/-! ## C7: the request state machine -/

theorem findReq_updateFirstReq (id : String) (f : JoinRequest → JoinRequest)
    (hf : ∀ r, (f r).id = r.id) (l : List JoinRequest) :
    findReq id (updateFirstReq id f l) = (findReq id l).map f := by
  induction l with
  | nil => rfl
  | cons r rest ih =>
    by_cases h : r.id = id
    · simp [updateFirstReq, findReq, h, hf r]
    · simp [updateFirstReq, findReq, h, ih]

/-- C7 counterexample: a request whose status is denied is set straight to
approved by the approve action — the claimed transition system forbids
denied → approved. -/
theorem denied_request_approved :
    (findReq "r1" (⟨[⟨"r1", "Alice", "alice", "", "", "denied", 1, none, none, some 2⟩],
        []⟩ : LedgerState).joinRequests).map (fun r => r.status) = some "denied" ∧
    (findReq "r1" (updateJoinRequest 5 "r1" .approve
        ⟨[⟨"r1", "Alice", "alice", "", "", "denied", 1, none, none, some 2⟩],
         []⟩).1.joinRequests).map (fun r => r.status) = some "approved" := by decide

/-- C7 amended: `updateJoinRequest` sets the status of the request found by id
according to the action alone, never inspecting the current status: approve
always yields status approved and deny always yields status denied, from any
prior status — so besides the claimed transitions, denied → approved and
approved → denied are reachable (while nothing ever sets a status back to
pending). -/
theorem update_status_ignores_prior (now : Int) (id : String) (st : LedgerState)
    (r : JoinRequest) (h : findReq id st.joinRequests = some r) :
    findReq id (updateJoinRequest now id .approve st).1.joinRequests =
      some { r with status := "approved", approvedAt := some now } ∧
    findReq id (updateJoinRequest now id .deny st).1.joinRequests =
      some { r with status := "denied", deniedAt := some now } := by
  constructor
  · unfold updateJoinRequest
    rw [h]
    simp only
    rw [findReq_updateFirstReq id
      (fun rr => { rr with status := "approved", approvedAt := some now }) (fun _ => rfl)
      st.joinRequests, h]
    rfl
  · unfold updateJoinRequest
    rw [h]
    simp only
    rw [findReq_updateFirstReq id
      (fun rr => { rr with status := "denied", deniedAt := some now }) (fun _ => rfl)
      st.joinRequests, h]
    rfl

/-- Witness for the amended C7: a denied request approved, and denied again. -/
theorem update_status_ignores_prior_witness :
    findReq "d1" (updateJoinRequest 9 "d1" .approve
        ⟨[⟨"d1", "Mallory", "mal", "", "", "denied", 3, none, none, some 4⟩],
         []⟩).1.joinRequests =
      some ⟨"d1", "Mallory", "mal", "", "", "approved", 3, none, some 9, some 4⟩ ∧
    findReq "d1" (updateJoinRequest 9 "d1" .deny
        ⟨[⟨"d1", "Mallory", "mal", "", "", "denied", 3, none, none, some 4⟩],
         []⟩).1.joinRequests =
      some ⟨"d1", "Mallory", "mal", "", "", "denied", 3, none, none, some 9⟩ := by
  simpa using update_status_ignores_prior 9 "d1"
    ⟨[⟨"d1", "Mallory", "mal", "", "", "denied", 3, none, none, some 4⟩], []⟩
    ⟨"d1", "Mallory", "mal", "", "", "denied", 3, none, none, some 4⟩ (by decide)

/-! ## C8: approval idempotence -/

theorem reqHandle_jsOr (u n : String) : reqHandle (jsOr u n) n = reqHandle u n := by
  unfold reqHandle jsOr
  by_cases h : u = "" <;> simp [h]

/-- C8: approving a request whose handle already has a member creates no
member record but still marks the request approved; and approving the same
request twice leaves the member list identical to approving it once. -/
theorem approve_idempotent (now now2 : Int) (id : String) (st : LedgerState)
    (r : JoinRequest) (h : findReq id st.joinRequests = some r) :
    (st.clanMembers.any (fun m => decide (reqHandle m.username m.name =
        reqHandle r.username r.name)) = true →
      (updateJoinRequest now id .approve st).1.clanMembers = st.clanMembers) ∧
    (findReq id (updateJoinRequest now id .approve st).1.joinRequests).map
      (fun r2 => r2.status) = some "approved" ∧
    (updateJoinRequest now2 id .approve (updateJoinRequest now id .approve st).1).1.clanMembers =
      (updateJoinRequest now id .approve st).1.clanMembers := by
  have hchar : ∀ (t : Int) (stx : LedgerState) (rx : JoinRequest),
      findReq id stx.joinRequests = some rx →
      (updateJoinRequest t id .approve stx).1 =
        ⟨updateFirstReq id (fun rr => { rr with status := "approved", approvedAt := some t })
           stx.joinRequests,
         (approveMember t { rx with status := "approved", approvedAt := some t }
           stx.clanMembers).1⟩ := by
    intro t stx rx hx
    unfold updateJoinRequest
    rw [hx]
  have hfind1 : findReq id (updateFirstReq id
      (fun rr => { rr with status := "approved", approvedAt := some now })
      st.joinRequests) = some { r with status := "approved", approvedAt := some now } := by
    rw [findReq_updateFirstReq id
      (fun rr => { rr with status := "approved", approvedAt := some now }) (fun _ => rfl)
      st.joinRequests, h]
    rfl
  refine ⟨?_, ?_, ?_⟩
  · intro hany
    rw [hchar now st r h]
    simp [approveMember, hany]
  · rw [hchar now st r h]
    simp only [hfind1]
    rfl
  · rw [hchar now st r h]
    rw [hchar now2 _ _ hfind1]
    simp only
    by_cases hany : st.clanMembers.any (fun m => decide (reqHandle m.username m.name =
        reqHandle r.username r.name)) = true
    · simp [approveMember, hany]
    · rw [Bool.not_eq_true] at hany
      have hp : (st.clanMembers ++
          [mkMember now { r with status := "approved", approvedAt := some now }]).any
          (fun m => decide (reqHandle m.username m.name = reqHandle r.username r.name)) =
          true := by
        rw [List.any_append]
        simp [mkMember, reqHandle_jsOr]
      simp [approveMember, hany, hp]

/-- Witness for C8: approving with a case-variant member already present. -/
theorem approve_idempotent_witness :
    (updateJoinRequest 7 "a1" .approve
        ⟨[⟨"a1", "Alice", "alice", "", "", "pending", 1, some "cHc=", none, none⟩],
         [⟨"m0", "Al", "ALICE", "—", "", "x", "member", "approved", 0, none⟩]⟩).1.clanMembers =
      [⟨"m0", "Al", "ALICE", "—", "", "x", "member", "approved", 0, none⟩] ∧
    (findReq "a1" (updateJoinRequest 7 "a1" .approve
        ⟨[⟨"a1", "Alice", "alice", "", "", "pending", 1, some "cHc=", none, none⟩],
         [⟨"m0", "Al", "ALICE", "—", "", "x", "member", "approved", 0,
           none⟩]⟩).1.joinRequests).map
      (fun r2 => r2.status) = some "approved" ∧
    (updateJoinRequest 8 "a1" .approve (updateJoinRequest 7 "a1" .approve
        ⟨[⟨"a1", "Alice", "alice", "", "", "pending", 1, some "cHc=", none, none⟩],
         [⟨"m0", "Al", "ALICE", "—", "", "x", "member", "approved", 0, none⟩]⟩).1).1.clanMembers =
      (updateJoinRequest 7 "a1" .approve
        ⟨[⟨"a1", "Alice", "alice", "", "", "pending", 1, some "cHc=", none, none⟩],
         [⟨"m0", "Al", "ALICE", "—", "", "x", "member", "approved", 0, none⟩]⟩).1.clanMembers := by
  have h := approve_idempotent 7 8 "a1"
    ⟨[⟨"a1", "Alice", "alice", "", "", "pending", 1, some "cHc=", none, none⟩],
     [⟨"m0", "Al", "ALICE", "—", "", "x", "member", "approved", 0, none⟩]⟩
    ⟨"a1", "Alice", "alice", "", "", "pending", 1, some "cHc=", none, none⟩ (by decide)
  exact ⟨h.1 (by decide), h.2.1, h.2.2⟩

end RustBot

/-! ## C9: subscriber snapshot/event ordering -/

namespace RustBot

theorem runHub_append {S E : Type} (a b : List (HubOp S E)) (st : HubState S E) :
    runHub (a ++ b) st = runHub b (runHub a st) := by
  simp [runHub, List.foldl_append]

theorem mapLookup_append_right {κ α : Type} [DecidableEq κ] (k : κ) (l1 l2 : List (κ × α))
    (h : mapLookup k l1 = none) : mapLookup k (l1 ++ l2) = mapLookup k l2 := by
  induction l1 with
  | nil => rfl
  | cons hd tl ih =>
    simp only [mapLookup, List.cons_append] at h ⊢
    split at h
    · cases h
    · rename_i hne
      rw [if_neg hne]
      exact ih h

theorem mapLookup_append_left {κ α : Type} [DecidableEq κ] (k : κ) (l1 l2 : List (κ × α))
    (v : α) (h : mapLookup k l1 = some v) : mapLookup k (l1 ++ l2) = some v := by
  induction l1 with
  | nil => cases h
  | cons hd tl ih =>
    simp only [mapLookup, List.cons_append] at h ⊢
    split at h
    · rename_i heq
      rw [if_pos heq]
      exact h
    · rename_i hne
      rw [if_neg hne]
      exact ih h

theorem mapLookup_map_append {κ M : Type} [DecidableEq κ] (k : κ) (x : M)
    (l : List (κ × List M)) :
    mapLookup k (l.map (fun p => (p.1, p.2 ++ [x]))) =
      (mapLookup k l).map (fun ms => ms ++ [x]) := by
  induction l with
  | nil => rfl
  | cons hd tl ih =>
    simp only [mapLookup, List.map_cons]
    by_cases h : hd.1 = k
    · rw [if_pos h, if_pos h]
      rfl
    · rw [if_neg h, if_neg h]
      exact ih

theorem mapLookup_filter_ne {κ α : Type} [DecidableEq κ] (k d : κ) (l : List (κ × α))
    (hne : ¬ d = k) :
    mapLookup k (l.filter (fun p => decide (¬ p.1 = d))) = mapLookup k l := by
  induction l with
  | nil => rfl
  | cons hd tl ih =>
    by_cases hd1 : hd.1 = d
    · have hk : ¬ hd.1 = k := fun hk2 => hne (hd1 ▸ hk2)
      rw [List.filter_cons, if_neg (by simp [hd1])]
      rw [ih]
      simp only [mapLookup]
      rw [if_neg hk]
    · rw [List.filter_cons, if_pos (by simp [hd1])]
      simp only [mapLookup]
      by_cases hk : hd.1 = k
      · rw [if_pos hk, if_pos hk]
      · rw [if_neg hk, if_neg hk]
        exact ih

theorem hub_lookup_none {S E : Type} (c : Nat) (ops : List (HubOp S E)) :
    ∀ st : HubState S E, (∀ op ∈ ops, touches c op = false) → mapLookup c st = none →
      mapLookup c (runHub ops st) = none := by
  induction ops with
  | nil => intro st _ h; exact h
  | cons op rest ih =>
    intro st hops h
    have hop := hops op (List.mem_cons_self _ _)
    have hrest := fun o ho => hops o (List.mem_cons_of_mem op ho)
    have hstep : runHub (op :: rest) st = runHub rest (hubStep st op) := rfl
    rw [hstep]
    refine ih _ hrest ?_
    cases op with
    | connect d s =>
      have hd : ¬ d = c := by simpa [touches] using hop
      show mapLookup c (st ++ [(d, [HubMsg.snapshot s])]) = none
      rw [mapLookup_append_right c st _ h]
      simp [mapLookup, hd]
    | publish e =>
      show mapLookup c (st.map (fun p => (p.1, p.2 ++ [HubMsg.event e]))) = none
      rw [mapLookup_map_append, h]
      rfl
    | disconnect d =>
      have hd : ¬ d = c := by simpa [touches] using hop
      show mapLookup c (st.filter (fun p => decide (¬ p.1 = d))) = none
      rw [mapLookup_filter_ne c d st hd]
      exact h

theorem hub_lookup_some {S E : Type} (c : Nat) (ops : List (HubOp S E)) :
    ∀ (st : HubState S E) (ms : List (HubMsg S E)),
      (∀ op ∈ ops, touches c op = false) → mapLookup c st = some ms →
      mapLookup c (runHub ops st) = some (ms ++ publishedEvents ops) := by
  induction ops with
  | nil => intro st ms _ h; simpa [runHub, publishedEvents] using h
  | cons op rest ih =>
    intro st ms hops h
    have hop := hops op (List.mem_cons_self _ _)
    have hrest := fun o ho => hops o (List.mem_cons_of_mem op ho)
    have hstep : runHub (op :: rest) st = runHub rest (hubStep st op) := rfl
    rw [hstep]
    cases op with
    | connect d s =>
      have h2 : mapLookup c (st ++ [(d, [HubMsg.snapshot s])]) = some ms :=
        mapLookup_append_left c st _ ms h
      exact ih _ ms hrest h2
    | publish e =>
      have h2 : mapLookup c (st.map (fun p => (p.1, p.2 ++ [HubMsg.event e]))) =
          some (ms ++ [HubMsg.event e]) := by
        rw [mapLookup_map_append, h]
        rfl
      have h3 := ih _ (ms ++ [HubMsg.event e]) hrest h2
      rw [List.append_assoc] at h3
      exact h3
    | disconnect d =>
      have hd : ¬ d = c := by simpa [touches] using hop
      have h2 : mapLookup c (st.filter (fun p => decide (¬ p.1 = d))) = some ms := by
        rw [mapLookup_filter_ne c d st hd]
        exact h
      exact ih _ ms hrest h2

/-- C9: a client that connects once (between the traces `pre` and `post`,
neither of which connects or disconnects it) ends with inbox exactly
`snapshot :: events of post` — one synchronous snapshot first, then every
event published after its subscription, in order, each exactly once, and
nothing published before its subscription. -/
theorem hub_snapshot_then_events {S E : Type} (pre post : List (HubOp S E)) (c : Nat) (s : S)
    (hpre : ∀ op ∈ pre, touches c op = false)
    (hpost : ∀ op ∈ post, touches c op = false) :
    mapLookup c (runHub (pre ++ HubOp.connect c s :: post) ([] : HubState S E)) =
      some (HubMsg.snapshot s :: publishedEvents post) := by
  have h1 : mapLookup c (runHub pre ([] : HubState S E)) = none :=
    hub_lookup_none c pre [] hpre rfl
  have h2 : runHub (pre ++ HubOp.connect c s :: post) ([] : HubState S E) =
      runHub post (hubStep (runHub pre []) (HubOp.connect c s)) := by
    rw [runHub_append]
    rfl
  rw [h2]
  have h3 : mapLookup c (hubStep (runHub pre ([] : HubState S E)) (HubOp.connect c s)) =
      some [HubMsg.snapshot s] := by
    show mapLookup c (runHub pre ([] : HubState S E) ++ [(c, [HubMsg.snapshot s])]) = _
    rw [mapLookup_append_right c _ _ h1]
    simp [mapLookup]
  have h4 := hub_lookup_some c post _ [HubMsg.snapshot s] hpost h3
  simpa using h4

/-- Witness for C9: client 5 connects after one event and a different client,
then two events are published and the other client disconnects. -/
theorem hub_snapshot_then_events_witness :
    mapLookup 5 (runHub ([HubOp.publish 1, HubOp.connect 2 50] ++ HubOp.connect 5 100 ::
        [HubOp.publish 7, HubOp.disconnect 2, HubOp.publish 8]) ([] : HubState Nat Nat)) =
      some [HubMsg.snapshot 100, HubMsg.event 7, HubMsg.event 8] := by
  simpa [publishedEvents] using hub_snapshot_then_events
    [HubOp.publish 1, HubOp.connect 2 50] [HubOp.publish 7, HubOp.disconnect 2, HubOp.publish 8]
    5 100 (by decide) (by decide)

/-! ## C10: the newJoinRequest broadcast carries the credential hash -/

/-- C10: every successful submission (WebSocket action and POST /join alike)
broadcasts a `newJoinRequest` message whose request carries
`passwordHash = base64(password)`, even though every `stateUpdate`/snapshot
broadcast strips `passwordHash` from its request list. -/
theorem new_request_broadcast_contains_hash (now : Int) (req : JoinSubmission)
    (st : LedgerState)
    (hid : ¬ req.id = "") (hname : ¬ req.name = "")
    (hpw : ¬ jsOr req.password req.passcode = "")
    (hnp : hasPendingDup (reqHandle req.username req.name) st.joinRequests = false)
    (hnm : hasMemberDup (reqHandle req.username req.name) st.clanMembers = false) :
    ∃ jr : JoinRequest,
      jr.passwordHash = some (base64Encode (jsOr req.password req.passcode)) ∧
      LedgerEffect.broadcastNewJoinRequest jr ∈ (submitJoinRequest now req st).2 ∧
      LedgerEffect.broadcastNewJoinRequest jr ∈ (postJoin now req st).2 ∧
      (∀ reqs2, LedgerEffect.broadcastStateUpdate reqs2 ∈ (submitJoinRequest now req st).2 →
        ∀ r2 ∈ reqs2, r2.passwordHash = none) ∧
      (∀ reqs2, LedgerEffect.broadcastStateUpdate reqs2 ∈ (postJoin now req st).2 →
        ∀ r2 ∈ reqs2, r2.passwordHash = none) := by
  refine ⟨⟨req.id, req.name, req.username, req.steam, req.discord, "pending", now,
    some (base64Encode (jsOr req.password req.passcode)), none, none⟩, rfl, ?_, ?_, ?_, ?_⟩
  · simp [submitJoinRequest, hid, hname, hpw, hnp, hnm]
  · simp [postJoin, hid, hname, hpw, hnp, hnm]
  · intro reqs2 hmem
    simp [submitJoinRequest, hid, hname, hpw, hnp, hnm] at hmem
    subst hmem
    intro r2 hr2
    simp only [buildStateRequests, List.mem_map] at hr2
    rcases hr2 with ⟨r0, _, rfl⟩
    rfl
  · intro reqs2 hmem
    simp [postJoin, hid, hname, hpw, hnp, hnm] at hmem
    subst hmem
    intro r2 hr2
    simp only [buildStateRequests, List.mem_map] at hr2
    rcases hr2 with ⟨r0, _, rfl⟩
    rfl

/-- Witness for C10 at a concrete submission against an empty ledger. -/
theorem new_request_broadcast_contains_hash_witness :
    ∃ jr : JoinRequest,
      jr.passwordHash = some (base64Encode (jsOr "hunter2" "")) ∧
      LedgerEffect.broadcastNewJoinRequest jr ∈
        (submitJoinRequest 42 ⟨"jid", "Neo", "neo", "", "", "hunter2", ""⟩ ⟨[], []⟩).2 ∧
      LedgerEffect.broadcastNewJoinRequest jr ∈
        (postJoin 42 ⟨"jid", "Neo", "neo", "", "", "hunter2", ""⟩ ⟨[], []⟩).2 ∧
      (∀ reqs2, LedgerEffect.broadcastStateUpdate reqs2 ∈
          (submitJoinRequest 42 ⟨"jid", "Neo", "neo", "", "", "hunter2", ""⟩ ⟨[], []⟩).2 →
        ∀ r2 ∈ reqs2, r2.passwordHash = none) ∧
      (∀ reqs2, LedgerEffect.broadcastStateUpdate reqs2 ∈
          (postJoin 42 ⟨"jid", "Neo", "neo", "", "", "hunter2", ""⟩ ⟨[], []⟩).2 →
        ∀ r2 ∈ reqs2, r2.passwordHash = none) :=
  new_request_broadcast_contains_hash 42 ⟨"jid", "Neo", "neo", "", "", "hunter2", ""⟩ ⟨[], []⟩
    (by decide) (by decide) (by decide) rfl rfl

end RustBot
